import Mathlib

/-!
Verification of the PR review tool's core pipeline (review_code.py):
the Diff Collector (get_pr_diff), the Size Estimator (_estimate_tokens),
the Chunk Splitter (_split_diff_into_files), the Response Reconciler
(_parse_openai_response) and the chunked-mode merge (_analyze_large_diff).

Python strings are modelled as Lean `String` (operated on through their
character lists); Python's `None` versus empty-string truthiness is made
explicit; machine-level floating point in the size estimator is modelled
by exact rational arithmetic (the two float constants 1.3 and 0.1 are the
rationals 13/10 and 1/10).
-/

namespace PRToolbox

/-! ### Python string primitives -/

/-- Split a character list at newline characters, mirroring Python's
`str.split('\n')`: the result always has at least one (possibly empty)
piece, and no piece contains a newline. -/
def splitNl : List Char → List (List Char)
  | [] => [[]]
  | c :: cs =>
    if c = '\n' then [] :: splitNl cs
    else
      match splitNl cs with
      | [] => [[c]]
      | p :: ps => (c :: p) :: ps

/-- Python's `'\n'.join` on character-list pieces. -/
def joinNl : List (List Char) → List Char
  | [] => []
  | [p] => p
  | p :: q :: qs => p ++ '\n' :: joinNl (q :: qs)

/-- Python's `text.split('\n')`, producing the list of lines. -/
def splitLines (s : String) : List String :=
  (splitNl s.data).map String.mk

/-- Python's `'\n'.join(lines)`. -/
def joinLines (ls : List String) : String :=
  String.mk (joinNl (ls.map String.data))

/-- Python's `s.startswith(t)`. -/
def strStartsWith (s t : String) : Bool :=
  List.isPrefixOf t.data s.data

/-- Python's `s.endswith(t)`. -/
def strEndsWith (s t : String) : Bool :=
  List.isSuffixOf t.data s.data

/-- Python's slice `s[n:]`. -/
def strDrop (s : String) (n : Nat) : String :=
  String.mk (s.data.drop n)

theorem splitNl_ne_nil (l : List Char) : splitNl l ≠ [] := by
  induction l with
  | nil => simp [splitNl]
  | cons c cs ih =>
    simp only [splitNl]
    split
    · simp
    · cases h : splitNl cs with
      | nil => simp
      | cons p ps => simp

theorem splitNl_append (a b : List Char) :
    splitNl (a ++ '\n' :: b) = splitNl a ++ splitNl b := by
  induction a with
  | nil => simp [splitNl]
  | cons c cs ih =>
    simp only [List.cons_append, splitNl, List.append_eq]
    split
    · simp [ih]
    · rw [ih]
      cases h : splitNl cs with
      | nil => exact absurd h (splitNl_ne_nil cs)
      | cons p ps => simp

theorem splitNl_no_newline (l : List Char) (h : '\n' ∉ l) : splitNl l = [l] := by
  induction l with
  | nil => rfl
  | cons c cs ih =>
    simp only [List.mem_cons, not_or] at h
    simp only [splitNl]
    rw [if_neg (Ne.symm h.1), ih h.2]

theorem joinNl_cons_of_ne_nil (p : List Char) (ps : List (List Char)) (h : ps ≠ []) :
    joinNl (p :: ps) = p ++ '\n' :: joinNl ps := by
  cases ps with
  | nil => exact absurd rfl h
  | cons q qs => rfl

theorem joinNl_splitNl (l : List Char) : joinNl (splitNl l) = l := by
  induction l with
  | nil => rfl
  | cons c cs ih =>
    simp only [splitNl]
    split
    · rename_i hc
      subst hc
      rw [joinNl_cons_of_ne_nil _ _ (splitNl_ne_nil cs), ih]
      rfl
    · cases h : splitNl cs with
      | nil => exact absurd h (splitNl_ne_nil cs)
      | cons p ps =>
        rw [h] at ih
        cases ps with
        | nil =>
          show joinNl [c :: p] = c :: cs
          show c :: p = c :: cs
          rw [show p = joinNl [p] from rfl, ih]
        | cons q qs =>
          show joinNl ((c :: p) :: q :: qs) = c :: cs
          rw [joinNl_cons_of_ne_nil _ _ (by simp)]
          rw [joinNl_cons_of_ne_nil _ _ (by simp)] at ih
          rw [← ih]
          rfl

theorem string_data_append (s t : String) : (s ++ t).data = s.data ++ t.data :=
  String.data_append s t

theorem string_mk_data (s : String) : String.mk s.data = s := rfl

theorem splitLines_append_nl (a b : String) :
    splitLines (a ++ "\n" ++ b) = splitLines a ++ splitLines b := by
  unfold splitLines
  rw [string_data_append, string_data_append]
  have h : a.data ++ "\n".data ++ b.data = a.data ++ '\n' :: b.data := by
    show a.data ++ ['\n'] ++ b.data = _
    rw [List.append_assoc]
    rfl
  rw [h, splitNl_append, List.map_append]

theorem splitLines_no_newline (s : String) (h : '\n' ∉ s.data) :
    splitLines s = [s] := by
  unfold splitLines
  rw [splitNl_no_newline s.data h]
  simp [string_mk_data]

theorem joinLines_splitLines (s : String) : joinLines (splitLines s) = s := by
  unfold joinLines splitLines
  rw [List.map_map]
  have : (String.data ∘ String.mk) = id := rfl
  rw [this, List.map_id, joinNl_splitNl]

/-! ### Data model: changed files (from the hosting API) -/

/-- One changed file of a pull request, as the Collector consumes it.
`patch` is `none` when the hosting API supplies no patch text. -/
structure ChangedFile where
  filename : String
  status : String
  additions : Nat
  deletions : Nat
  patch : Option String
deriving DecidableEq

/-- Python truthiness of the optional patch text: `None` and the empty
string are both falsy (`if file.patch:`). -/
def patchTruthy : Option String → Bool
  | none => false
  | some p => !(p == "")

/-- `file.filename.endswith(('.png', '.jpg', '.jpeg', '.gif', '.pdf', '.zip', '.tar.gz'))`. -/
def isBinaryFilename (name : String) : Bool :=
  strEndsWith name ".png" || strEndsWith name ".jpg" || strEndsWith name ".jpeg" ||
  strEndsWith name ".gif" || strEndsWith name ".pdf" || strEndsWith name ".zip" ||
  strEndsWith name ".tar.gz"

/-- The `Additions: {n}, Deletions: {m}` header line (without newline). -/
def addsLine (f : ChangedFile) : String :=
  "Additions: " ++ toString f.additions ++ ", Deletions: " ++ toString f.deletions

/-- The text one changed file appends to `diff_content` in `get_pr_diff`'s
loop: nothing when the patch is falsy, a one-line placeholder for binary
filename extensions, a truncated block (first 500 patch lines plus marker)
when `additions + deletions > 1000`, else the full header block and patch. -/
def fileContribution (f : ChangedFile) : String :=
  match f.patch with
  | none => ""
  | some p =>
    if p = "" then ""
    else if isBinaryFilename f.filename then
      "File: " ++ f.filename ++ " (binary file - skipped)\n"
    else if f.additions + f.deletions > 1000 then
      "File: " ++ f.filename ++ " (large file - showing first 500 lines)\n" ++
      "Status: " ++ f.status ++ "\n" ++ addsLine f ++ "\n" ++ "---\n" ++
      joinLines ((splitLines p).take 500) ++ "\n... (truncated due to size)\n\n"
    else
      "File: " ++ f.filename ++ "\n" ++ "Status: " ++ f.status ++ "\n" ++
      addsLine f ++ "\n" ++ "---\n" ++ p ++ "\n\n"

/-- Whether the loop body reaches the `total_files += 1` /
`total_changes += ...` statements for this file: it must have truthy patch
text and a non-binary filename (the binary branch `continue`s first). -/
def fileCounted (f : ChangedFile) : Bool :=
  patchTruthy f.patch && !isBinaryFilename f.filename

/-- One iteration of `get_pr_diff`'s loop over the accumulator
`(diff_content, total_files, total_changes)`. -/
def collectStep (acc : String × Nat × Nat) (f : ChangedFile) : String × Nat × Nat :=
  (acc.1 ++ fileContribution f,
   acc.2.1 + (if fileCounted f then 1 else 0),
   acc.2.2 + (if fileCounted f then f.additions + f.deletions else 0))

/-- `get_pr_diff` with its observable counters: the final
`(diff_content, total_files, total_changes)` triple. -/
def get_pr_diffFull (files : List ChangedFile) : String × Nat × Nat :=
  files.foldl collectStep ("", 0, 0)

/-- The DiffBlob returned by `get_pr_diff`. -/
def get_pr_diff (files : List ChangedFile) : String :=
  (get_pr_diffFull files).1

theorem get_pr_diff_two (f1 f2 : ChangedFile) :
    get_pr_diff [f1, f2] = fileContribution f1 ++ fileContribution f2 := by
  show ("" ++ fileContribution f1) ++ fileContribution f2 = _
  rw [String.empty_append]

/-- Claim C7: for a changed file with patch text and a non-binary filename,
the Collector truncates exactly when `additions + deletions > 1000`: at
1001 it emits the large-file header block, the first 500 patch lines and
the truncation marker; at 1000 it emits the full header block and the
complete patch text. -/
theorem c7_collector_truncation_boundary (f : ChangedFile) (p : String)
    (hp : f.patch = some p) (hne : p ≠ "")
    (hbin : isBinaryFilename f.filename = false) :
    (f.additions + f.deletions = 1001 →
      fileContribution f =
        "File: " ++ f.filename ++ " (large file - showing first 500 lines)\n" ++
        "Status: " ++ f.status ++ "\n" ++ addsLine f ++ "\n" ++ "---\n" ++
        joinLines ((splitLines p).take 500) ++ "\n... (truncated due to size)\n\n") ∧
    (f.additions + f.deletions = 1000 →
      fileContribution f =
        "File: " ++ f.filename ++ "\n" ++ "Status: " ++ f.status ++ "\n" ++
        addsLine f ++ "\n" ++ "---\n" ++ p ++ "\n\n") := by
  constructor
  · intro h1001
    simp [fileContribution, hp, hne, hbin, h1001]
  · intro h1000
    simp [fileContribution, hp, hne, hbin, h1000]

/-- Witness for claim C7 at a concrete file. -/
theorem c7_collector_truncation_boundary_witness :
    fileContribution ⟨"a.py", "modified", 900, 101, some "line1\nline2"⟩ =
      "File: a.py (large file - showing first 500 lines)\nStatus: modified\nAdditions: 900, Deletions: 101\n---\nline1\nline2\n... (truncated due to size)\n\n" ∧
    fileContribution ⟨"a.py", "modified", 900, 100, some "line1\nline2"⟩ =
      "File: a.py\nStatus: modified\nAdditions: 900, Deletions: 100\n---\nline1\nline2\n\n" := by
  constructor
  · rw [(c7_collector_truncation_boundary ⟨"a.py", "modified", 900, 101, some "line1\nline2"⟩
      "line1\nline2" rfl (by decide) (by decide)).1 rfl]
    decide
  · rw [(c7_collector_truncation_boundary ⟨"a.py", "modified", 900, 100, some "line1\nline2"⟩
      "line1\nline2" rfl (by decide) (by decide)).2 rfl]
    decide

/-- Claim C3 counterexample: a changed file whose patch text is absent
contributes the empty string to the blob — the Collector emits no one-line
skip placeholder for it, contrary to the claim. -/
theorem c3_absent_patch_counterexample :
    fileContribution ⟨"data.bin", "modified", 3, 1, none⟩ = "" ∧
    ("" : String) ≠ "File: data.bin (binary file - skipped)\n" :=
  ⟨rfl, by decide⟩

/-- Claim C3 amended: a changed file without truthy patch text contributes
nothing at all to the blob (no placeholder) and is not counted toward the
processed-file and total-change counts; the collector loop leaves the whole
accumulator unchanged for such a file. -/
theorem c3_absent_patch_amended (f : ChangedFile) (h : patchTruthy f.patch = false) :
    fileContribution f = "" ∧ fileCounted f = false ∧
    ∀ acc : String × Nat × Nat, collectStep acc f = acc := by
  have hc : fileContribution f = "" := by
    cases hp : f.patch with
    | none => simp [fileContribution, hp]
    | some p =>
      rw [hp] at h
      unfold patchTruthy at h
      simp at h
      simp [fileContribution, hp, h]
  have hcnt : fileCounted f = false := by
    unfold fileCounted
    rw [h]
    rfl
  refine ⟨hc, hcnt, ?_⟩
  intro acc
  unfold collectStep
  rw [hc, hcnt]
  simp

/-- Witness for the amended claim C3 at a concrete file and accumulator. -/
theorem c3_absent_patch_amended_witness :
    fileContribution ⟨"data.bin", "modified", 3, 1, none⟩ = "" ∧
    fileCounted ⟨"data.bin", "modified", 3, 1, none⟩ = false ∧
    collectStep ("x", 2, 5) ⟨"data.bin", "modified", 3, 1, none⟩ = ("x", 2, 5) := by
  have h := c3_absent_patch_amended ⟨"data.bin", "modified", 3, 1, none⟩ rfl
  exact ⟨h.1, h.2.1, h.2.2 ("x", 2, 5)⟩

/-! ### Size Estimator (`_estimate_tokens`) -/

/-- Python `str.split()` whitespace (the ASCII whitespace characters:
space, tab, newline, carriage return, vertical tab, form feed). -/
def isPySpace (c : Char) : Bool :=
  c = ' ' || c = '\t' || c = '\n' || c = '\r' || c = Char.ofNat 11 || c = Char.ofNat 12

/-- Worker for Python's `str.split()` (no argument): split on runs of
whitespace, discarding empty pieces; `acc` is the word currently being
read. -/
def pySplitWsGo : List Char → List Char → List (List Char)
  | [], acc => if acc.isEmpty then [] else [acc]
  | c :: cs, acc =>
    if isPySpace c then
      if acc.isEmpty then pySplitWsGo cs [] else acc :: pySplitWsGo cs []
    else pySplitWsGo cs (acc ++ [c])

/-- Python's `text.split()`. -/
def pySplitWs (text : String) : List String :=
  (pySplitWsGo text.data []).map String.mk

/-- `_estimate_tokens`: `words = len(text.split())`, `chars = len(text)`,
result `int(words * 1.3 + chars * 0.1)`. The float arithmetic is modelled
exactly over the rationals; on this non-negative value Python's `int`
truncation is the floor, i.e. Nat division of `13*words + chars` by 10. -/
def _estimate_tokens (text : String) : Nat :=
  let words := (pySplitWs text).length
  let chars := text.data.length
  (13 * words + chars) / 10

/-- Python's `round` on an exact rational: round half to even. -/
def pyRound (q : ℚ) : ℤ :=
  let f := ⌊q⌋
  if q - f < 1/2 then f
  else if 1/2 < q - f then f + 1
  else if Even f then f else f + 1

/-- Modelled from the spec's words (for comparison with `_estimate_tokens`):
"round(word_count * 1.3 + char_count * 0.1)". -/
def specRoundEstimate (text : String) : ℤ :=
  pyRound (((pySplitWs text).length : ℚ) * (13 / 10) + (text.data.length : ℚ) * (1 / 10))

theorem pySplitWsGo_length_pos (b : List Char) (acc : List Char) (h : acc ≠ []) :
    1 ≤ (pySplitWsGo b acc).length := by
  induction b generalizing acc with
  | nil => simp [pySplitWsGo, h]
  | cons c cs ih =>
    simp only [pySplitWsGo]
    split
    · rw [if_neg (by simpa using h)]
      simp
    · exact ih (acc ++ [c]) (by simp)

theorem pySplitWsGo_length_mono (a b : List Char) (acc : List Char) :
    (pySplitWsGo a acc).length ≤ (pySplitWsGo (a ++ b) acc).length := by
  induction a generalizing acc with
  | nil =>
    simp only [List.nil_append, pySplitWsGo]
    split
    · simp
    · rename_i h
      simpa using pySplitWsGo_length_pos b acc (by simpa using h)
  | cons c cs ih =>
    simp only [List.cons_append, pySplitWsGo]
    split
    · split
      · exact ih []
      · simpa using ih []
    · exact ih (acc ++ [c])

/-- Claim C2 counterexample: on the two-character text "ab" (one word, two
characters) the code returns `int(1*1.3 + 2*0.1) = int(1.5) = 1`, while the
claimed `round(...)` is 2. -/
theorem c2_estimator_round_counterexample :
    (_estimate_tokens "ab" : ℤ) = 1 ∧ specRoundEstimate "ab" = 2 ∧ (1 : ℤ) ≠ 2 := by
  refine ⟨by decide, ?_, by decide⟩
  show pyRound (((pySplitWs "ab").length : ℚ) * (13 / 10) + (("ab" : String).data.length : ℚ) * (1 / 10)) = 2
  have hw : (pySplitWs "ab").length = 1 := by decide
  have hc : ("ab" : String).data.length = 2 := by decide
  rw [hw, hc]
  have h : ((1 : ℕ) : ℚ) * (13 / 10) + ((2 : ℕ) : ℚ) * (1 / 10) = 3 / 2 := by norm_num
  rw [h]
  have hf : ⌊(3 / 2 : ℚ)⌋ = 1 := by
    rw [Int.floor_eq_iff]
    norm_num
  unfold pyRound
  rw [hf]
  norm_num

/-- Claim C2 amended: the Size Estimator returns the floor (Python `int`
truncation), not the rounding, of `word_count * 1.3 + char_count * 0.1`;
the result is a non-negative integer and the function is pure (it is a
plain function of the text). -/
theorem c2_estimator_floor (text : String) :
    _estimate_tokens text =
      ⌊((pySplitWs text).length : ℚ) * (13 / 10) + (text.data.length : ℚ) * (1 / 10)⌋₊ := by
  have h : ((pySplitWs text).length : ℚ) * (13 / 10) + (text.data.length : ℚ) * (1 / 10) =
      ((13 * (pySplitWs text).length + text.data.length : ℕ) : ℚ) / ((10 : ℕ) : ℚ) := by
    push_cast
    ring
  rw [h, Nat.floor_div_eq_div]
  rfl

/-- Claim C9: the Size Estimator is monotone under appending non-empty
content: `estimate(A ++ B) >= estimate(A)`. -/
theorem c9_estimator_monotone (A B : String) (h : B ≠ "") :
    _estimate_tokens A ≤ _estimate_tokens (A ++ B) := by
  have hw : (pySplitWs A).length ≤ (pySplitWs (A ++ B)).length := by
    unfold pySplitWs
    rw [string_data_append]
    simpa using pySplitWsGo_length_mono A.data B.data []
  have hc : A.data.length ≤ (A ++ B).data.length := by
    rw [string_data_append, List.length_append]
    exact Nat.le_add_right _ _
  exact Nat.div_le_div_right (Nat.add_le_add (Nat.mul_le_mul_left 13 hw) hc)

/-- Witness for claim C9 at concrete texts. -/
theorem c9_estimator_monotone_witness :
    ("x y" : String) ≠ "" ∧ _estimate_tokens "ab c" ≤ _estimate_tokens ("ab c" ++ "x y") :=
  ⟨by decide, c9_estimator_monotone "ab c" "x y" (by decide)⟩

/-! ### Chunk Splitter (`_split_diff_into_files`) -/

/-- The flush `if current_file and current_content: chunks.append((current_file,
'\n'.join(current_content)))`: `current_file` is falsy when `None` or empty,
`current_content` when the empty list. -/
def flushChunk (currentFile : Option String) (currentContent : List String) :
    List (String × String) :=
  match currentFile with
  | none => []
  | some f =>
    if f = "" then []
    else if currentContent = [] then []
    else [(f, joinLines currentContent)]

/-- The loop of `_split_diff_into_files` over the lines of the blob: a line
beginning with `File: ` flushes the current chunk and starts a new one named
by the rest of the line; other lines are appended to the current chunk, or
dropped when no (truthy) current file exists; the last chunk is flushed at
end of input. -/
def splitDiffGo : List String → Option String → List String → List (String × String)
  | [], currentFile, currentContent => flushChunk currentFile currentContent
  | line :: rest, currentFile, currentContent =>
    if strStartsWith line "File: " then
      flushChunk currentFile currentContent ++
        splitDiffGo rest (some (strDrop line 6)) [line]
    else
      match currentFile with
      | none => splitDiffGo rest none currentContent
      | some f =>
        if f = "" then splitDiffGo rest (some f) currentContent
        else splitDiffGo rest (some f) (currentContent ++ [line])

/-- `_split_diff_into_files(diff_content)`. -/
def _split_diff_into_files (diff_content : String) : List (String × String) :=
  splitDiffGo (splitLines diff_content) none []

theorem strStartsWith_marker (n : String) : strStartsWith ("File: " ++ n) "File: " = true := by
  unfold strStartsWith
  rw [string_data_append]
  simp [List.isPrefixOf]

theorem strDrop_marker (n : String) : strDrop ("File: " ++ n) 6 = n := by
  unfold strDrop
  rw [string_data_append]
  rw [show (6 : Nat) = "File: ".data.length from rfl, List.drop_left]

theorem status_not_marker (s : String) :
    strStartsWith ("Status: " ++ s) "File: " = false := by
  unfold strStartsWith
  rw [string_data_append]
  simp [List.isPrefixOf]

theorem addsLine_not_marker (f : ChangedFile) :
    strStartsWith (addsLine f) "File: " = false := by
  unfold strStartsWith addsLine
  rw [string_data_append, string_data_append, string_data_append]
  simp [List.isPrefixOf]

theorem splitDiffGo_skip (ls : List String)
    (h : ∀ l ∈ ls, strStartsWith l "File: " = false)
    (rest : List String) (f : String) (hf : f ≠ "") (cc : List String) :
    splitDiffGo (ls ++ rest) (some f) cc = splitDiffGo rest (some f) (cc ++ ls) := by
  induction ls generalizing cc with
  | nil => simp
  | cons l ls ih =>
    have hl : strStartsWith l "File: " = false := h l (by simp)
    have hrest : ∀ x ∈ ls, strStartsWith x "File: " = false := fun x hx => h x (by simp [hx])
    simp only [List.cons_append, splitDiffGo, hl, List.append_eq]
    rw [if_neg (by simp), if_neg hf]
    rw [ih hrest (cc ++ [l])]
    simp

/-- Running the splitter on the line list of a blob made of exactly two
file blocks, each starting with its `File: ` marker line and continuing
with marker-free lines. -/
theorem splitDiffGo_two_blocks (n1 n2 : String) (hn1 : n1 ≠ "") (hn2 : n2 ≠ "")
    (mid1 mid2 : List String)
    (hm1 : ∀ l ∈ mid1, strStartsWith l "File: " = false)
    (hm2 : ∀ l ∈ mid2, strStartsWith l "File: " = false) :
    splitDiffGo ((("File: " ++ n1) :: mid1) ++ (("File: " ++ n2) :: mid2)) none [] =
      [(n1, joinLines (("File: " ++ n1) :: mid1)),
       (n2, joinLines (("File: " ++ n2) :: mid2))] := by
  rw [List.cons_append]
  show splitDiffGo (("File: " ++ n1) :: (mid1 ++ ("File: " ++ n2) :: mid2)) none [] = _
  simp only [splitDiffGo, strStartsWith_marker, if_pos, strDrop_marker]
  show flushChunk none [] ++
      splitDiffGo (mid1 ++ ("File: " ++ n2) :: mid2) (some n1) ["File: " ++ n1] = _
  rw [show flushChunk none [] = [] from rfl, List.nil_append]
  rw [splitDiffGo_skip mid1 hm1 _ n1 hn1 _]
  simp only [splitDiffGo, strStartsWith_marker, if_pos, strDrop_marker]
  have hskip2 := splitDiffGo_skip mid2 hm2 [] n2 hn2 ["File: " ++ n2]
  rw [List.append_nil] at hskip2
  rw [hskip2]
  show flushChunk (some n1) (["File: " ++ n1] ++ mid1) ++
      splitDiffGo [] (some n2) (["File: " ++ n2] ++ mid2) = _
  simp [splitDiffGo, flushChunk, hn1, hn2]

theorem string_ext {s t : String} (h : s.data = t.data) : s = t := by
  cases s
  cases t
  cases h
  rfl

theorem digitChar_ne_newline (d : Nat) : Nat.digitChar d ≠ '\n' := by
  by_cases h : d ≤ 15
  · interval_cases d <;> decide
  · rw [Nat.digitChar.eq_def]
    repeat rw [if_neg (by omega)]
    decide

theorem toDigitsCore_chars (b : Nat) (fuel : Nat) :
    ∀ (n : Nat) (ds : List Char) (c : Char), c ∈ Nat.toDigitsCore b fuel n ds →
      c ∈ ds ∨ ∃ d, c = Nat.digitChar d := by
  induction fuel with
  | zero => exact fun n ds c h => Or.inl h
  | succ fuel ih =>
    intro n ds c h
    simp only [Nat.toDigitsCore] at h
    split at h
    · rcases List.mem_cons.mp h with h' | h'
      · exact Or.inr ⟨n % b, h'⟩
      · exact Or.inl h'
    · rcases ih _ _ _ h with h' | h'
      · rcases List.mem_cons.mp h' with h'' | h''
        · exact Or.inr ⟨n % b, h''⟩
        · exact Or.inl h''
      · exact Or.inr h'

theorem newline_not_mem_natRepr (n : Nat) : '\n' ∉ (toString n).data := by
  intro h
  have h' : '\n' ∈ Nat.toDigitsCore 10 (n + 1) n [] := h
  rcases toDigitsCore_chars 10 (n + 1) n [] '\n' h' with h'' | ⟨d, h''⟩
  · simp at h''
  · exact digitChar_ne_newline d h''.symm

theorem newline_not_mem_addsLine (f : ChangedFile) : '\n' ∉ (addsLine f).data := by
  unfold addsLine
  rw [string_data_append, string_data_append, string_data_append]
  intro h
  rcases List.mem_append.mp h with h' | h'
  · rcases List.mem_append.mp h' with h'' | h''
    · rcases List.mem_append.mp h'' with h3 | h3
      · exact absurd h3 (by decide)
      · exact newline_not_mem_natRepr f.additions h3
    · exact absurd h'' (by decide)
  · exact newline_not_mem_natRepr f.deletions h'

/-- Splitting one file block of the blob into its lines: header lines, the
patch's own lines, then the lines of the trailing text `T`. -/
theorem splitLines_block (A B C p T : String)
    (hA : '\n' ∉ A.data) (hB : '\n' ∉ B.data) (hC : '\n' ∉ C.data) :
    splitLines (A ++ "\n" ++ (B ++ "\n" ++ (C ++ "\n" ++ ("---" ++ "\n" ++ (p ++ "\n" ++ T))))) =
      A :: B :: C :: "---" :: (splitLines p ++ splitLines T) := by
  rw [splitLines_append_nl, splitLines_append_nl, splitLines_append_nl, splitLines_append_nl,
    splitLines_append_nl]
  rw [splitLines_no_newline A hA, splitLines_no_newline B hB, splitLines_no_newline C hC]
  rw [(by decide : splitLines "---" = ["---"])]
  simp

/-- Claim C1 counterexample: for the blob built from two one-line files,
the splitter does return two segments with the right filenames, but their
concatenation is NOT the original blob byte-for-byte: the newline that
separated the first block's trailing blank line from the second `File: `
marker line is lost by the split/join round trip. -/
theorem c1_splitter_counterexample :
    _split_diff_into_files
        (get_pr_diff [⟨"a.py", "modified", 1, 0, some "+x"⟩,
          ⟨"b.py", "added", 1, 0, some "+y"⟩]) =
      [("a.py", "File: a.py\nStatus: modified\nAdditions: 1, Deletions: 0\n---\n+x\n"),
       ("b.py", "File: b.py\nStatus: added\nAdditions: 1, Deletions: 0\n---\n+y\n\n")] ∧
    "File: a.py\nStatus: modified\nAdditions: 1, Deletions: 0\n---\n+x\n" ++
        "File: b.py\nStatus: added\nAdditions: 1, Deletions: 0\n---\n+y\n\n" ≠
      get_pr_diff [⟨"a.py", "modified", 1, 0, some "+x"⟩,
        ⟨"b.py", "added", 1, 0, some "+y"⟩] := by
  constructor
  · decide
  · decide

/-- Claim C1 amended: splitting a DiffBlob built from two non-binary,
non-truncated files yields exactly two segments whose filenames equal the
files' filenames in order, and concatenating the segments with a single
newline re-inserted between them (the one the split/join round trip drops)
reproduces the blob byte-for-byte. Requires the data-model assumptions of
the spec: filenames non-empty and newline-free, statuses newline-free, and
no patch line starting with the `File: ` marker. -/
theorem c1_splitter_two_files (f1 f2 : ChangedFile) (p1 p2 : String)
    (hp1 : f1.patch = some p1) (hne1 : p1 ≠ "")
    (hbin1 : isBinaryFilename f1.filename = false)
    (hsz1 : f1.additions + f1.deletions ≤ 1000)
    (hfn1 : f1.filename ≠ "") (hfnl1 : '\n' ∉ f1.filename.data)
    (hsnl1 : '\n' ∉ f1.status.data)
    (hpm1 : ∀ l ∈ splitLines p1, strStartsWith l "File: " = false)
    (hp2 : f2.patch = some p2) (hne2 : p2 ≠ "")
    (hbin2 : isBinaryFilename f2.filename = false)
    (hsz2 : f2.additions + f2.deletions ≤ 1000)
    (hfn2 : f2.filename ≠ "") (hfnl2 : '\n' ∉ f2.filename.data)
    (hsnl2 : '\n' ∉ f2.status.data)
    (hpm2 : ∀ l ∈ splitLines p2, strStartsWith l "File: " = false) :
    ∃ seg1 seg2,
      _split_diff_into_files (get_pr_diff [f1, f2]) =
        [(f1.filename, seg1), (f2.filename, seg2)] ∧
      seg1 ++ "\n" ++ seg2 = get_pr_diff [f1, f2] := by
  have hgt1 : ¬ f1.additions + f1.deletions > 1000 := by omega
  have hgt2 : ¬ f2.additions + f2.deletions > 1000 := by omega
  have hbr1 : fileContribution f1 =
      "File: " ++ f1.filename ++ "\n" ++ "Status: " ++ f1.status ++ "\n" ++
        addsLine f1 ++ "\n" ++ "---\n" ++ p1 ++ "\n\n" := by
    simp [fileContribution, hp1, hne1, hbin1, hgt1]
  have hbr2 : fileContribution f2 =
      "File: " ++ f2.filename ++ "\n" ++ "Status: " ++ f2.status ++ "\n" ++
        addsLine f2 ++ "\n" ++ "---\n" ++ p2 ++ "\n\n" := by
    simp [fileContribution, hp2, hne2, hbin2, hgt2]
  have hd1 : ("---\n" : String).data = ("---" : String).data ++ ("\n" : String).data := by decide
  have hd2 : ("\n\n" : String).data = ("\n" : String).data ++ ("\n" : String).data := by decide
  have hd3 : ("" : String).data = [] := by decide
  have hdec1 : fileContribution f1 =
      (("File: " ++ f1.filename) ++ "\n" ++ (("Status: " ++ f1.status) ++ "\n" ++
        (addsLine f1 ++ "\n" ++ ("---" ++ "\n" ++ (p1 ++ "\n" ++ ""))))) ++ "\n" := by
    rw [hbr1]
    apply string_ext
    simp [string_data_append, hd1, hd2, hd3, List.append_assoc]
  have hdec2 : fileContribution f2 =
      ("File: " ++ f2.filename) ++ "\n" ++ (("Status: " ++ f2.status) ++ "\n" ++
        (addsLine f2 ++ "\n" ++ ("---" ++ "\n" ++ (p2 ++ "\n" ++ "\n")))) := by
    rw [hbr2]
    apply string_ext
    simp [string_data_append, hd1, hd2, List.append_assoc]
  have hblob : get_pr_diff [f1, f2] =
      (("File: " ++ f1.filename) ++ "\n" ++ (("Status: " ++ f1.status) ++ "\n" ++
        (addsLine f1 ++ "\n" ++ ("---" ++ "\n" ++ (p1 ++ "\n" ++ ""))))) ++ "\n" ++
        fileContribution f2 := by
    rw [get_pr_diff_two, hdec1]
  have hA1 : '\n' ∉ ("File: " ++ f1.filename).data := by
    rw [string_data_append]
    intro h
    rcases List.mem_append.mp h with h' | h'
    · exact absurd h' (by decide)
    · exact hfnl1 h'
  have hA2 : '\n' ∉ ("File: " ++ f2.filename).data := by
    rw [string_data_append]
    intro h
    rcases List.mem_append.mp h with h' | h'
    · exact absurd h' (by decide)
    · exact hfnl2 h'
  have hB1 : '\n' ∉ ("Status: " ++ f1.status).data := by
    rw [string_data_append]
    intro h
    rcases List.mem_append.mp h with h' | h'
    · exact absurd h' (by decide)
    · exact hsnl1 h'
  have hB2 : '\n' ∉ ("Status: " ++ f2.status).data := by
    rw [string_data_append]
    intro h
    rcases List.mem_append.mp h with h' | h'
    · exact absurd h' (by decide)
    · exact hsnl2 h'
  have hlines1 : splitLines (("File: " ++ f1.filename) ++ "\n" ++ (("Status: " ++ f1.status) ++
      "\n" ++ (addsLine f1 ++ "\n" ++ ("---" ++ "\n" ++ (p1 ++ "\n" ++ ""))))) =
      ("File: " ++ f1.filename) :: ("Status: " ++ f1.status) :: addsLine f1 :: "---" ::
        (splitLines p1 ++ [""]) := by
    rw [splitLines_block _ _ _ _ _ hA1 hB1 (newline_not_mem_addsLine f1)]
    rw [(by decide : splitLines "" = [""])]
  have hlines2 : splitLines (fileContribution f2) =
      ("File: " ++ f2.filename) :: ("Status: " ++ f2.status) :: addsLine f2 :: "---" ::
        (splitLines p2 ++ ["", ""]) := by
    rw [hdec2]
    rw [splitLines_block _ _ _ _ _ hA2 hB2 (newline_not_mem_addsLine f2)]
    rw [(by decide : splitLines "\n" = ["", ""])]
  have hm1 : ∀ l ∈ ("Status: " ++ f1.status) :: addsLine f1 :: "---" ::
      (splitLines p1 ++ [""]), strStartsWith l "File: " = false := by
    intro l hl
    simp at hl
    rcases hl with rfl | rfl | rfl | hl | rfl
    · exact status_not_marker f1.status
    · exact addsLine_not_marker f1
    · decide
    · exact hpm1 l hl
    · decide
  have hm2 : ∀ l ∈ ("Status: " ++ f2.status) :: addsLine f2 :: "---" ::
      (splitLines p2 ++ ["", ""]), strStartsWith l "File: " = false := by
    intro l hl
    simp at hl
    rcases hl with rfl | rfl | rfl | hl | rfl
    · exact status_not_marker f2.status
    · exact addsLine_not_marker f2
    · decide
    · exact hpm2 l hl
    · decide
  refine ⟨("File: " ++ f1.filename) ++ "\n" ++ (("Status: " ++ f1.status) ++ "\n" ++
      (addsLine f1 ++ "\n" ++ ("---" ++ "\n" ++ (p1 ++ "\n" ++ "")))),
    fileContribution f2, ?_, hblob.symm⟩
  unfold _split_diff_into_files
  rw [hblob, splitLines_append_nl, hlines1, hlines2]
  rw [splitDiffGo_two_blocks f1.filename f2.filename hfn1 hfn2 _ _ hm1 hm2]
  rw [← hlines1, joinLines_splitLines, ← hlines2, joinLines_splitLines]

/-- Witness for the amended claim C1 at two concrete files. -/
theorem c1_splitter_two_files_witness :
    ∃ seg1 seg2,
      _split_diff_into_files (get_pr_diff [⟨"a.py", "modified", 1, 0, some "+x"⟩,
        ⟨"b.py", "added", 1, 0, some "+y"⟩]) = [("a.py", seg1), ("b.py", seg2)] ∧
      seg1 ++ "\n" ++ seg2 = get_pr_diff [⟨"a.py", "modified", 1, 0, some "+x"⟩,
        ⟨"b.py", "added", 1, 0, some "+y"⟩] :=
  c1_splitter_two_files ⟨"a.py", "modified", 1, 0, some "+x"⟩
    ⟨"b.py", "added", 1, 0, some "+y"⟩ "+x" "+y"
    rfl (by decide) (by decide) (by decide) (by decide) (by decide) (by decide)
    (by decide)
    rfl (by decide) (by decide) (by decide) (by decide) (by decide) (by decide)
    (by decide)

/-! ### Response Reconciler (`_parse_openai_response`) -/

/-- Python values as they come out of `json.loads` (and as the tool then
passes them around dynamically): `jnull` is Python `None`, `jobj` a dict
in insertion order (duplicate JSON keys are kept in the list; lookups take
the last occurrence, matching dict overwrite semantics). -/
inductive JValue where
  | jnull
  | jbool (b : Bool)
  | jnum (n : Int)
  | jstr (s : String)
  | jarr (xs : List JValue)
  | jobj (fields : List (String × JValue))

/-- `re.search(r'\{.*\}', response, re.DOTALL)`: the greedy match runs from
the first `{` to the last `}` of the string, provided some `}` occurs after
the first `{`; otherwise there is no match. -/
def extractBraces (s : String) : Option String :=
  let tail := s.data.dropWhile (fun c => !(c = '{'))
  let trimmed := (tail.reverse.dropWhile (fun c => !(c = '}'))).reverse
  if trimmed.isEmpty then none else some (String.mk trimmed)

/-- JSON whitespace accepted between tokens by `json.loads`. -/
def jsonWs (c : Char) : Bool :=
  c = ' ' || c = '\t' || c = '\n' || c = '\r'

/-- JSON string body parser (after the opening quote): returns the decoded
characters and the input after the closing quote. The `\uXXXX` escape is
not modelled (inputs using it fall outside the theorems below). -/
def parseJStringGo : List Char → List Char → Option (List Char × List Char)
  | [], _ => none
  | c :: cs, acc =>
    if c = '"' then some (acc, cs)
    else if c = '\\' then
      match cs with
      | [] => none
      | e :: cs' =>
        if e = '"' then parseJStringGo cs' (acc ++ ['"'])
        else if e = '\\' then parseJStringGo cs' (acc ++ ['\\'])
        else if e = '/' then parseJStringGo cs' (acc ++ ['/'])
        else if e = 'b' then parseJStringGo cs' (acc ++ [Char.ofNat 8])
        else if e = 'f' then parseJStringGo cs' (acc ++ [Char.ofNat 12])
        else if e = 'n' then parseJStringGo cs' (acc ++ ['\n'])
        else if e = 'r' then parseJStringGo cs' (acc ++ ['\r'])
        else if e = 't' then parseJStringGo cs' (acc ++ ['\t'])
        else none
    else parseJStringGo cs (acc ++ [c])

/-- Parse a non-empty run of decimal digits. -/
def parseDigits (cs : List Char) : Option (Nat × List Char) :=
  let ds := cs.takeWhile (fun c => '0' ≤ c && c ≤ '9')
  if ds.isEmpty then none
  else some (ds.foldl (fun a c => a * 10 + (c.toNat - 48)) 0, cs.drop ds.length)

mutual

/-- Recursive-descent JSON value parser (integer-only number grammar, the
subset the tool's prompts request); fuel bounds the recursion depth. -/
def parseJValue : Nat → List Char → Option (JValue × List Char)
  | 0, _ => none
  | fuel + 1, cs =>
    match List.dropWhile jsonWs cs with
    | [] => none
    | c :: rest =>
      if c = '{' then
        match List.dropWhile jsonWs rest with
        | '}' :: r => some (.jobj [], r)
        | _ =>
          match parseJMember fuel rest with
          | none => none
          | some (m, r1) =>
            match parseJObjTail fuel r1 [m] with
            | none => none
            | some (ms, r2) => some (.jobj ms, r2)
      else if c = '[' then
        match List.dropWhile jsonWs rest with
        | ']' :: r => some (.jarr [], r)
        | _ =>
          match parseJValue fuel rest with
          | none => none
          | some (v, r1) =>
            match parseJArrTail fuel r1 [v] with
            | none => none
            | some (vs, r2) => some (.jarr vs, r2)
      else if c = '"' then
        match parseJStringGo rest [] with
        | none => none
        | some (l, r) => some (.jstr (String.mk l), r)
      else if c = 't' then
        if rest.take 3 = ['r', 'u', 'e'] then some (.jbool true, rest.drop 3) else none
      else if c = 'f' then
        if rest.take 4 = ['a', 'l', 's', 'e'] then some (.jbool false, rest.drop 4) else none
      else if c = 'n' then
        if rest.take 3 = ['u', 'l', 'l'] then some (.jnull, rest.drop 3) else none
      else if c = '-' then
        match parseDigits rest with
        | none => none
        | some (n, r) => some (.jnum (-(n : Int)), r)
      else
        match parseDigits (c :: rest) with
        | none => none
        | some (n, r) => some (.jnum (n : Int), r)

/-- One `"key": value` object member (leading whitespace allowed). -/
def parseJMember : Nat → List Char → Option ((String × JValue) × List Char)
  | 0, _ => none
  | fuel + 1, cs =>
    match List.dropWhile jsonWs cs with
    | '"' :: r =>
      match parseJStringGo r [] with
      | none => none
      | some (key, r1) =>
        match List.dropWhile jsonWs r1 with
        | ':' :: r2 =>
          match parseJValue fuel r2 with
          | none => none
          | some (v, r3) => some ((String.mk key, v), r3)
        | _ => none
    | _ => none

/-- Remaining members of an object after the first: `, member`* then `}`. -/
def parseJObjTail : Nat → List Char → List (String × JValue) →
    Option (List (String × JValue) × List Char)
  | 0, _, _ => none
  | fuel + 1, cs, acc =>
    match List.dropWhile jsonWs cs with
    | ',' :: r =>
      match parseJMember fuel r with
      | none => none
      | some (m, r1) => parseJObjTail fuel r1 (acc ++ [m])
    | '}' :: r => some (acc, r)
    | _ => none

/-- Remaining elements of an array after the first: `, value`* then `]`. -/
def parseJArrTail : Nat → List Char → List JValue → Option (List JValue × List Char)
  | 0, _, _ => none
  | fuel + 1, cs, acc =>
    match List.dropWhile jsonWs cs with
    | ',' :: r =>
      match parseJValue fuel r with
      | none => none
      | some (v, r1) => parseJArrTail fuel r1 (acc ++ [v])
    | ']' :: r => some (acc, r)
    | _ => none

end

/-- `json.loads`: a single JSON value, with nothing but whitespace after it. -/
def jsonParse (s : String) : Option JValue :=
  match parseJValue (s.data.length + 1) s.data with
  | some (v, rest) => if (List.dropWhile jsonWs rest).isEmpty then some v else none
  | none => none

/-- Python `dict` lookup on the decoded member list: with duplicate JSON
keys the later assignment overwrites, so the last occurrence wins. -/
def jGet : List (String × JValue) → String → Option JValue
  | [], _ => none
  | (k, v) :: rest, key =>
    match jGet rest key with
    | some v' => some v'
    | none => if k = key then some v else none

/-- Python `data.get(key, default)` (a present JSON `null` is Python `None`,
i.e. `jnull`, not the default). -/
def pyGetD (fields : List (String × JValue)) (key : String) (default : JValue) : JValue :=
  (jGet fields key).getD default

/-- The keys of a decoded object in first-insertion order (a duplicate key
keeps its first position; its value was already merged by `jGet`). -/
def dictKeys : List (String × JValue) → List String
  | [] => []
  | (k, _) :: rest => k :: (dictKeys rest).filter (fun k' => !(k' == k))

/-- Python iteration over a dynamic value (`for x in v` / `list.extend(v)`):
lists yield their elements, strings their one-character substrings, dicts
their keys; `None`, booleans and numbers raise `TypeError`. -/
def pyIter : JValue → Except Unit (List JValue)
  | .jarr xs => .ok xs
  | .jstr s => .ok (s.data.map (fun c => .jstr (String.mk [c])))
  | .jobj fields => .ok ((dictKeys fields).map .jstr)
  | _ => .error ()

/-- `CodeIssue` as the tool actually populates it: the dataclass field
annotations are not enforced at runtime, so each field holds whatever
dynamic value `issue_data.get` returned (`jnull` for an absent optional). -/
structure CodeIssue where
  severity : JValue
  category : JValue
  title : JValue
  description : JValue
  line_number : JValue
  file_path : JValue
  suggestion : JValue

/-- `ReviewResult`, with the dynamically-typed fields the code stores. -/
structure ReviewResult where
  issues : List CodeIssue
  summary : JValue
  overall_score : JValue
  recommendations : JValue

/-- Building one `CodeIssue` from `issue_data`: `.get` with the defaults of
the source; a non-dict `issue_data` raises (`AttributeError`) and is caught
by the surrounding `except`. -/
def buildIssue : JValue → Except Unit CodeIssue
  | .jobj fields => .ok
      { severity := pyGetD fields "severity" (.jstr "info")
        category := pyGetD fields "category" (.jstr "best_practice")
        title := pyGetD fields "title" (.jstr "")
        description := pyGetD fields "description" (.jstr "")
        line_number := pyGetD fields "line_number" .jnull
        file_path := pyGetD fields "file_path" .jnull
        suggestion := pyGetD fields "suggestion" .jnull }
  | _ => .error ()

/-- The `for issue_data in ...: issues.append(...)` loop. -/
def buildIssues : List JValue → Except Unit (List CodeIssue)
  | [] => .ok []
  | x :: xs =>
    match buildIssue x with
    | .error e => .error e
    | .ok i =>
      match buildIssues xs with
      | .error e => .error e
      | .ok is => .ok (i :: is)

/-- The fixed fallback `ReviewResult` returned by the `except` branch. -/
def fallbackResult : ReviewResult :=
  { issues := []
    summary := .jstr "Error parsing OpenAI response"
    overall_score := .jnum 0
    recommendations := .jarr [.jstr "Review the code manually"] }

/-- The field mapping applied to a successfully decoded JSON object. -/
def reviewFromData (fields : List (String × JValue)) : Except Unit ReviewResult :=
  match pyIter (pyGetD fields "issues" (.jarr [])) with
  | .error e => .error e
  | .ok items =>
    match buildIssues items with
    | .error e => .error e
    | .ok issues => .ok
        { issues := issues
          summary := pyGetD fields "summary" (.jstr "")
          overall_score := pyGetD fields "overall_score" (.jnum 0)
          recommendations := pyGetD fields "recommendations" (.jarr []) }

/-- `_parse_openai_response`: extract the first-`{`-to-last-`}` substring,
decode it as JSON, map the fields with defaults; any failure (no brace
pair, decode error, non-dict data, non-iterable or non-dict issues) is
caught and yields `fallbackResult`. -/
def _parse_openai_response (response : String) : ReviewResult :=
  match extractBraces response with
  | none => fallbackResult
  | some sub =>
    match jsonParse sub with
    | none => fallbackResult
    | some (.jobj fields) =>
      match reviewFromData fields with
      | .ok r => r
      | .error _ => fallbackResult
    | some _ => fallbackResult

theorem dropWhile_head_false {p : Char → Bool} {l : List Char} {c : Char} {cs : List Char}
    (h : List.dropWhile p l = c :: cs) : p c = false := by
  induction l with
  | nil => simp [List.dropWhile] at h
  | cons x xs ih =>
    rw [List.dropWhile] at h
    cases hpx : p x with
    | true =>
      simp only [hpx] at h
      exact ih h
    | false =>
      simp only [hpx] at h
      cases h
      exact hpx

/-- If a string has no `{` ... `}` pair (in that order), the regex search
finds nothing. -/
theorem extractBraces_eq_none (s : String)
    (h : ∀ l m r : List Char, s.data ≠ l ++ '{' :: m ++ '}' :: r) :
    extractBraces s = none := by
  have htrimmed :
      ((s.data.dropWhile (fun c => !(c = '{'))).reverse.dropWhile (fun c => !(c = '}'))).reverse
        = [] := by
    cases htail : s.data.dropWhile (fun c => !(c = '{')) with
    | nil => simp
    | cons c cs =>
      have hc : c = '{' := by
        have := dropWhile_head_false htail
        simpa using this
      cases htrim : (c :: cs).reverse.dropWhile (fun c => !(c = '}')) with
      | nil => simp
      | cons e es =>
        exfalso
        have he : e = '}' := by
          have := dropWhile_head_false htrim
          simpa using this
        have hmem : e ∈ (c :: cs).reverse := by
          have hsub : List.Sublist ((c :: cs).reverse.dropWhile (fun c => !(c = '}')))
              ((c :: cs).reverse) := List.dropWhile_sublist _
          exact hsub.mem (htrim ▸ List.mem_cons_self e es)
        rw [List.mem_reverse] at hmem
        have hmem' : e ∈ cs := by
          rcases List.mem_cons.mp hmem with h' | h'
          · rw [hc] at h'
            rw [he] at h'
            exact absurd h' (by decide)
          · exact h'
        rcases List.append_of_mem hmem' with ⟨m, r, hm⟩
        have hdecomp : s.data =
            s.data.takeWhile (fun c => !(c = '{')) ++ '{' :: m ++ '}' :: r := by
          conv_lhs =>
            rw [← List.takeWhile_append_dropWhile (fun c => !(c = '{')) s.data]
          rw [htail, hc, hm, he]
          simp
        exact h _ m r hdecomp
  simp [extractBraces, htrimmed]

/-- A string without any `{` at all has no brace pair. -/
theorem no_brace_pair_of_no_open (s : String) (h : '{' ∉ s.data) :
    ∀ l m r : List Char, s.data ≠ l ++ '{' :: m ++ '}' :: r := by
  intro l m r heq
  apply h
  rw [heq]
  simp

/-- Claim C5: for every input string containing no `{`...`}` pair, the
Reconciler returns the fixed fallback result (zero issues, summary
"Error parsing OpenAI response", score 0, single recommendation
"Review the code manually"); the same fallback results on JSON decode
failure (e.g. on the input "{not json}"), and the function is total, so
no error propagates. -/
theorem c5_reconciler_fallback (s : String)
    (h : ∀ l m r : List Char, s.data ≠ l ++ '{' :: m ++ '}' :: r) :
    _parse_openai_response s = fallbackResult ∧
    fallbackResult.issues = [] ∧
    fallbackResult.summary = .jstr "Error parsing OpenAI response" ∧
    fallbackResult.overall_score = .jnum 0 ∧
    fallbackResult.recommendations = .jarr [.jstr "Review the code manually"] ∧
    _parse_openai_response "{not json}" = fallbackResult := by
  refine ⟨?_, rfl, rfl, rfl, rfl, by rfl⟩
  unfold _parse_openai_response
  rw [extractBraces_eq_none s h]

/-- Witness for claim C5 at a concrete brace-free string. -/
theorem c5_reconciler_fallback_witness :
    _parse_openai_response "I could not find any issues." = fallbackResult ∧
    fallbackResult.issues = [] ∧
    fallbackResult.summary = .jstr "Error parsing OpenAI response" ∧
    fallbackResult.overall_score = .jnum 0 ∧
    fallbackResult.recommendations = .jarr [.jstr "Review the code manually"] ∧
    _parse_openai_response "{not json}" = fallbackResult :=
  c5_reconciler_fallback "I could not find any issues."
    (no_brace_pair_of_no_open _ (by decide))

/-- Claim C6: when the extracted brace substring decodes as a JSON object,
the Reconciler maps fields exactly — populated fields are copied verbatim
(first conjunct), and missing keys get the documented defaults: severity
"info", category "best_practice", title and description empty, line_number,
file_path and suggestion absent (None), summary empty, overall_score 0,
recommendations empty (second conjunct). -/
theorem c6_reconciler_roundtrip :
    (∀ (response sub : String) (fields ifields : List (String × JValue))
        (sev cat tit desc fp sg sm : String) (ln sc : Int) (recs : List JValue),
        extractBraces response = some sub →
        jsonParse sub = some (.jobj fields) →
        jGet fields "issues" = some (.jarr [.jobj ifields]) →
        jGet ifields "severity" = some (.jstr sev) →
        jGet ifields "category" = some (.jstr cat) →
        jGet ifields "title" = some (.jstr tit) →
        jGet ifields "description" = some (.jstr desc) →
        jGet ifields "line_number" = some (.jnum ln) →
        jGet ifields "file_path" = some (.jstr fp) →
        jGet ifields "suggestion" = some (.jstr sg) →
        jGet fields "summary" = some (.jstr sm) →
        jGet fields "overall_score" = some (.jnum sc) →
        jGet fields "recommendations" = some (.jarr recs) →
        _parse_openai_response response =
          { issues := [⟨.jstr sev, .jstr cat, .jstr tit, .jstr desc, .jnum ln, .jstr fp, .jstr sg⟩]
            summary := .jstr sm
            overall_score := .jnum sc
            recommendations := .jarr recs }) ∧
    (∀ (response sub : String) (fields ifields : List (String × JValue)),
        extractBraces response = some sub →
        jsonParse sub = some (.jobj fields) →
        jGet fields "issues" = some (.jarr [.jobj ifields]) →
        jGet ifields "severity" = none →
        jGet ifields "category" = none →
        jGet ifields "title" = none →
        jGet ifields "description" = none →
        jGet ifields "line_number" = none →
        jGet ifields "file_path" = none →
        jGet ifields "suggestion" = none →
        jGet fields "summary" = none →
        jGet fields "overall_score" = none →
        jGet fields "recommendations" = none →
        _parse_openai_response response =
          { issues := [⟨.jstr "info", .jstr "best_practice", .jstr "", .jstr "",
              .jnull, .jnull, .jnull⟩]
            summary := .jstr ""
            overall_score := .jnum 0
            recommendations := .jarr [] }) := by
  constructor
  · intro response sub fields ifields sev cat tit desc fp sg sm ln sc recs
      he hj h1 h2 h3 h4 h5 h6 h7 h8 h9 h10 h11
    simp [_parse_openai_response, he, hj, reviewFromData, pyGetD, pyIter, buildIssues,
      buildIssue, h1, h2, h3, h4, h5, h6, h7, h8, h9, h10, h11]
  · intro response sub fields ifields he hj h1 h2 h3 h4 h5 h6 h7 h8 h9 h10 h11
    simp [_parse_openai_response, he, hj, reviewFromData, pyGetD, pyIter, buildIssues,
      buildIssue, h1, h2, h3, h4, h5, h6, h7, h8, h9, h10, h11]

set_option maxRecDepth 8192 in
/-- Witness for claim C6: the spec's example payload round-trips, and an
object with one empty issue and no other keys yields all defaults. -/
theorem c6_reconciler_roundtrip_witness :
    _parse_openai_response "\x7b\"issues\":[\x7b\"severity\":\"high\",\"category\":\"security\",\"title\":\"T\",\"description\":\"D\",\"line_number\":5,\"file_path\":\"a.py\",\"suggestion\":\"S\"\x7d],\"summary\":\"ok\",\"overall_score\":80,\"recommendations\":[\"r1\",\"r2\"]\x7d" =
      { issues := [⟨.jstr "high", .jstr "security", .jstr "T", .jstr "D", .jnum 5,
          .jstr "a.py", .jstr "S"⟩]
        summary := .jstr "ok"
        overall_score := .jnum 80
        recommendations := .jarr [.jstr "r1", .jstr "r2"] } ∧
    _parse_openai_response "\x7b\"issues\":[\x7b\x7d]\x7d" =
      { issues := [⟨.jstr "info", .jstr "best_practice", .jstr "", .jstr "",
          .jnull, .jnull, .jnull⟩]
        summary := .jstr ""
        overall_score := .jnum 0
        recommendations := .jarr [] } := by
  constructor
  · exact c6_reconciler_roundtrip.1
      "\x7b\"issues\":[\x7b\"severity\":\"high\",\"category\":\"security\",\"title\":\"T\",\"description\":\"D\",\"line_number\":5,\"file_path\":\"a.py\",\"suggestion\":\"S\"\x7d],\"summary\":\"ok\",\"overall_score\":80,\"recommendations\":[\"r1\",\"r2\"]\x7d"
      "\x7b\"issues\":[\x7b\"severity\":\"high\",\"category\":\"security\",\"title\":\"T\",\"description\":\"D\",\"line_number\":5,\"file_path\":\"a.py\",\"suggestion\":\"S\"\x7d],\"summary\":\"ok\",\"overall_score\":80,\"recommendations\":[\"r1\",\"r2\"]\x7d"
      [("issues", .jarr [.jobj [("severity", .jstr "high"), ("category", .jstr "security"),
          ("title", .jstr "T"), ("description", .jstr "D"), ("line_number", .jnum 5),
          ("file_path", .jstr "a.py"), ("suggestion", .jstr "S")]]),
        ("summary", .jstr "ok"), ("overall_score", .jnum 80),
        ("recommendations", .jarr [.jstr "r1", .jstr "r2"])]
      [("severity", .jstr "high"), ("category", .jstr "security"), ("title", .jstr "T"),
        ("description", .jstr "D"), ("line_number", .jnum 5), ("file_path", .jstr "a.py"),
        ("suggestion", .jstr "S")]
      "high" "security" "T" "D" "a.py" "S" "ok" 5 80 [.jstr "r1", .jstr "r2"]
      rfl rfl rfl rfl rfl rfl rfl rfl rfl rfl rfl rfl rfl
  · exact c6_reconciler_roundtrip.2 "\x7b\"issues\":[\x7b\x7d]\x7d" "\x7b\"issues\":[\x7b\x7d]\x7d"
      [("issues", .jarr [.jobj []])] []
      rfl rfl rfl rfl rfl rfl rfl rfl rfl rfl rfl rfl rfl

/-! ### Chunked-mode merge (`_analyze_large_diff`)

One chunk's outcome is modelled as the completion-API result for that
chunk: `none` when the call raised an exception, `some content` when it
returned `content` (the empty string standing for a falsy/absent
completion, skipped by `if content:`). -/

/-- The mutable loop state `(all_issues, all_recommendations, scores)`. -/
structure ChunkAcc where
  all_issues : List CodeIssue
  all_recommendations : List JValue
  scores : List JValue

/-- One iteration of the chunk loop: an exception or falsy content
contributes nothing; otherwise the parsed result's issues are appended,
then its recommendations list is iterated into `all_recommendations`
(a `TypeError` there is caught after the issues were already appended,
skipping the score), then its score is appended. -/
def chunkStep (acc : ChunkAcc) (outcome : Option String) : ChunkAcc :=
  match outcome with
  | none => acc
  | some content =>
    if content = "" then acc
    else
      let r := _parse_openai_response content
      match pyIter r.recommendations with
      | .ok recs =>
        { all_issues := acc.all_issues ++ r.issues
          all_recommendations := acc.all_recommendations ++ recs
          scores := acc.scores ++ [r.overall_score] }
      | .error _ => { acc with all_issues := acc.all_issues ++ r.issues }

/-- Python `sum` over the dynamic score list: ints add, booleans count as
1/0, anything else raises `TypeError` (uncaught, aborting the merge). -/
def pySumGo : Int → List JValue → Except Unit Int
  | a, [] => .ok a
  | a, .jnum n :: rest => pySumGo (a + n) rest
  | a, .jbool b :: rest => pySumGo (a + if b then 1 else 0) rest
  | _, _ => .error ()

def pySum (xs : List JValue) : Except Unit Int :=
  pySumGo 0 xs

/-- Hashable (set-insertable) dynamic values: lists and dicts raise. -/
def pyHashable : JValue → Bool
  | .jarr _ => false
  | .jobj _ => false
  | _ => true

/-- Python `==` on hashable values: numbers and booleans compare
numerically, strings by content, `None` only to itself. -/
def pyEqAtom : JValue → JValue → Bool
  | .jnull, .jnull => true
  | .jbool a, .jbool b => a == b
  | .jbool a, .jnum b => (if a then (1 : Int) else 0) == b
  | .jnum a, .jbool b => a == (if b then (1 : Int) else 0)
  | .jnum a, .jnum b => a == b
  | .jstr a, .jstr b => a == b
  | _, _ => false

/-- `list(set(xs))`: deduplicate with set semantics. CPython's set
iteration order is unspecified; the model fixes first-occurrence order
(every order-insensitive consequence — length, membership — is the same).
An unhashable element raises at insertion time. -/
def pySetListGo : List JValue → List JValue → Except Unit (List JValue)
  | acc, [] => .ok acc
  | acc, x :: xs =>
    if pyHashable x then
      if acc.any (fun y => pyEqAtom y x) then pySetListGo acc xs
      else pySetListGo (acc ++ [x]) xs
    else .error ()

def pySetList (xs : List JValue) : Except Unit (List JValue) :=
  pySetListGo [] xs

/-- `_analyze_large_diff`'s result combination, given the per-chunk
completion outcomes: fold the chunk loop, then
`sum(scores) // len(scores) if scores else 0`, then
`list(set(all_recommendations))[:5]`, then assemble the merged
`ReviewResult` with the synthesized summary. A dynamic-type error in the
score sum or the set construction propagates (aborts the run). -/
def _analyze_large_diff (outcomes : List (Option String)) : Except Unit ReviewResult :=
  let acc := outcomes.foldl chunkStep ⟨[], [], []⟩
  match (if acc.scores.isEmpty then .ok 0 else
      match pySum acc.scores with
      | .error e => .error e
      | .ok s => .ok (Int.fdiv s acc.scores.length) : Except Unit Int) with
  | .error e => .error e
  | .ok overall =>
    match pySetList acc.all_recommendations with
    | .error e => .error e
    | .ok uniq => .ok
        { issues := acc.all_issues
          summary := .jstr ("Analyzed " ++ toString outcomes.length ++ " files with " ++
            toString acc.all_issues.length ++ " total issues found")
          overall_score := .jnum overall
          recommendations := .jarr (uniq.take 5) }

/-- The parsed result a chunk outcome contributes, if any. -/
def chunkParsed (o : Option String) : Option ReviewResult :=
  match o with
  | none => none
  | some content => if content = "" then none else some (_parse_openai_response content)

/-- The scores list the chunk loop accumulates (a chunk contributes its
score only when its recommendations were iterable). -/
def chunkScores (outcomes : List (Option String)) : List JValue :=
  outcomes.flatMap fun o =>
    match chunkParsed o with
    | none => []
    | some r =>
      match pyIter r.recommendations with
      | .ok _ => [r.overall_score]
      | .error _ => []

/-- The issues list the chunk loop accumulates. -/
def chunkIssues (outcomes : List (Option String)) : List CodeIssue :=
  outcomes.flatMap fun o =>
    match chunkParsed o with
    | none => []
    | some r => r.issues

/-- The recommendations the chunk loop accumulates. -/
def chunkRecs (outcomes : List (Option String)) : List JValue :=
  outcomes.flatMap fun o =>
    match chunkParsed o with
    | none => []
    | some r =>
      match pyIter r.recommendations with
      | .ok recs => recs
      | .error _ => []

theorem foldl_chunkStep (outcomes : List (Option String)) (acc : ChunkAcc) :
    outcomes.foldl chunkStep acc =
      ⟨acc.all_issues ++ chunkIssues outcomes,
       acc.all_recommendations ++ chunkRecs outcomes,
       acc.scores ++ chunkScores outcomes⟩ := by
  induction outcomes generalizing acc with
  | nil => simp [chunkIssues, chunkRecs, chunkScores]
  | cons o os ih =>
    rw [List.foldl_cons, ih]
    unfold chunkStep chunkIssues chunkRecs chunkScores chunkParsed
    cases o with
    | none => simp
    | some content =>
      by_cases hc : content = ""
      · simp [hc]
      · simp only [hc, if_neg, ite_false]
        cases hit : pyIter (_parse_openai_response content).recommendations with
        | ok recs => simp [hc, hit]
        | error e => simp [hc, hit]

theorem pySumGo_map_jnum (ns : List Int) (a : Int) :
    pySumGo a (ns.map .jnum) = .ok (a + ns.sum) := by
  induction ns generalizing a with
  | nil => simp [pySumGo]
  | cons n ns ih =>
    simp only [List.map_cons, pySumGo, ih]
    rw [List.sum_cons]
    ring_nf

/-- Claim C4: in chunked-mode merging the overall score is the floor
division of the sum of the per-chunk scores by the number of chunks that
produced a score (failed chunks enter neither), and 0 when no chunk
produced a score. -/
theorem c4_merge_score (outcomes : List (Option String)) (ns : List Int)
    (hs : chunkScores outcomes = ns.map JValue.jnum)
    (r : ReviewResult) (hr : _analyze_large_diff outcomes = .ok r) :
    r.overall_score = .jnum (if ns = [] then 0 else Int.fdiv ns.sum ns.length) := by
  unfold _analyze_large_diff at hr
  rw [foldl_chunkStep] at hr
  simp only [List.nil_append] at hr
  rw [hs] at hr
  by_cases hn : ns = []
  · subst hn
    simp only [List.map_nil, List.isEmpty_nil, if_true] at hr
    cases hset : pySetList (chunkRecs outcomes) with
    | error e => simp [hset] at hr
    | ok uniq =>
      simp only [hset] at hr
      simp only [Except.ok.injEq] at hr
      rw [← hr]
      simp
  · have hne : (ns.map JValue.jnum).isEmpty = false := by
      simp [List.isEmpty_iff, hn]
    rw [hne] at hr
    simp only [Bool.false_eq_true, if_false] at hr
    have hsum : pySum (ns.map .jnum) = .ok ns.sum := by
      unfold pySum
      rw [pySumGo_map_jnum]
      rw [Int.zero_add]
    rw [hsum] at hr
    simp only [List.length_map] at hr
    cases hset : pySetList (chunkRecs outcomes) with
    | error e => simp [hset] at hr
    | ok uniq =>
      simp only [hset] at hr
      simp only [Except.ok.injEq] at hr
      rw [← hr]
      simp [hn]

/-- Witness for claim C4: chunks scoring 90 and 70 plus one failed chunk
merge to overall score (90+70)//2 = 80. -/
theorem c4_merge_score_witness :
    chunkScores [some "\x7b\"overall_score\":90\x7d", some "\x7b\"overall_score\":70\x7d",
        none] = [.jnum 90, .jnum 70] ∧
    ∃ r, _analyze_large_diff [some "\x7b\"overall_score\":90\x7d",
        some "\x7b\"overall_score\":70\x7d", none] = .ok r ∧
      r.overall_score = .jnum 80 := by
  refine ⟨by rfl,
    ⟨{ issues := []
       summary := .jstr "Analyzed 3 files with 0 total issues found"
       overall_score := .jnum 80
       recommendations := .jarr [] }, by rfl, ?_⟩⟩
  have h := c4_merge_score
    [some "\x7b\"overall_score\":90\x7d", some "\x7b\"overall_score\":70\x7d", none]
    [90, 70] (by rfl)
    { issues := []
      summary := .jstr "Analyzed 3 files with 0 total issues found"
      overall_score := .jnum 80
      recommendations := .jarr [] } (by rfl)
  exact h.trans (congrArg JValue.jnum (by decide))

theorem pyEqAtom_jstr_iff (x : JValue) (s : String) :
    pyEqAtom x (.jstr s) = true ↔ x = .jstr s := by
  cases x <;> simp [pyEqAtom]

theorem pySetListGo_jstr (ss : List String) (acc : List JValue) (hnd : ss.Nodup)
    (hdisj : ∀ s ∈ ss, JValue.jstr s ∉ acc) :
    pySetListGo acc (ss.map .jstr) = .ok (acc ++ ss.map .jstr) := by
  induction ss generalizing acc with
  | nil => simp [pySetListGo]
  | cons s ss ih =>
    simp only [List.map_cons, pySetListGo]
    have hh : pyHashable (.jstr s) = true := rfl
    rw [hh]
    have hany : (acc.any fun y => pyEqAtom y (.jstr s)) = false := by
      rw [List.any_eq_false]
      intro y hy
      rw [pyEqAtom_jstr_iff]
      intro hys
      exact hdisj s (List.mem_cons_self s ss) (hys ▸ hy)
    rw [if_pos rfl, hany]
    simp only [Bool.false_eq_true, if_false]
    have hnd' : ss.Nodup := (List.nodup_cons.mp hnd).2
    have hs_not : s ∉ ss := (List.nodup_cons.mp hnd).1
    have hdisj' : ∀ t ∈ ss, JValue.jstr t ∉ acc ++ [JValue.jstr s] := by
      intro t ht
      rw [List.mem_append]
      rintro (h' | h')
      · exact hdisj t (List.mem_cons_of_mem s ht) h'
      · have h'' := List.mem_singleton.mp h'
        have hts : t = s := by injection h''
        exact hs_not (hts ▸ ht)
    rw [ih (acc ++ [JValue.jstr s]) hnd' hdisj']
    simp

/-- Claim C8: the merged recommendation list is the concatenation of all
chunks' recommendations, deduplicated with set semantics and capped at 5:
with 16 pairwise-distinct string recommendations exactly 5 survive, each
drawn from the concatenated list. -/
theorem c8_merge_recommendation_cap (outcomes : List (Option String)) (ss : List String)
    (hrecs : chunkRecs outcomes = ss.map JValue.jstr)
    (hnd : ss.Nodup) (hlen : ss.length = 16)
    (r : ReviewResult) (hr : _analyze_large_diff outcomes = .ok r) :
    ∃ l : List JValue, r.recommendations = .jarr l ∧ l.length = 5 ∧
      ∀ v ∈ l, v ∈ chunkRecs outcomes := by
  unfold _analyze_large_diff at hr
  rw [foldl_chunkStep] at hr
  simp only [List.nil_append] at hr
  rw [hrecs] at hr
  have hset : pySetList (ss.map .jstr) = .ok (ss.map .jstr) := by
    unfold pySetList
    rw [pySetListGo_jstr ss [] hnd (by simp)]
    simp
  rw [hset] at hr
  cases hov : (if (chunkScores outcomes).isEmpty = true then Except.ok 0 else
      match pySum (chunkScores outcomes) with
      | .error e => .error e
      | .ok s => .ok (Int.fdiv s (chunkScores outcomes).length) : Except Unit Int) with
  | error e => rw [hov] at hr; simp at hr
  | ok overall =>
    rw [hov] at hr
    simp only [Except.ok.injEq] at hr
    refine ⟨(ss.map JValue.jstr).take 5, ?_, ?_, ?_⟩
    · rw [← hr]
    · rw [List.length_take, List.length_map, hlen]
      omega
    · intro v hv
      rw [hrecs]
      exact List.take_subset 5 _ hv

/-- Witness for claim C8: eight chunks, each contributing two distinct
recommendations (16 in total, pairwise distinct), merge to exactly 5. -/
theorem c8_merge_recommendation_cap_witness :
    ∃ r, _analyze_large_diff
        [some "\x7b\"recommendations\":[\"r1a\",\"r1b\"]\x7d",
         some "\x7b\"recommendations\":[\"r2a\",\"r2b\"]\x7d",
         some "\x7b\"recommendations\":[\"r3a\",\"r3b\"]\x7d",
         some "\x7b\"recommendations\":[\"r4a\",\"r4b\"]\x7d",
         some "\x7b\"recommendations\":[\"r5a\",\"r5b\"]\x7d",
         some "\x7b\"recommendations\":[\"r6a\",\"r6b\"]\x7d",
         some "\x7b\"recommendations\":[\"r7a\",\"r7b\"]\x7d",
         some "\x7b\"recommendations\":[\"r8a\",\"r8b\"]\x7d"] = .ok r ∧
      ∃ l : List JValue, r.recommendations = .jarr l ∧ l.length = 5 ∧
        ∀ v ∈ l, v ∈ chunkRecs
          [some "\x7b\"recommendations\":[\"r1a\",\"r1b\"]\x7d",
           some "\x7b\"recommendations\":[\"r2a\",\"r2b\"]\x7d",
           some "\x7b\"recommendations\":[\"r3a\",\"r3b\"]\x7d",
           some "\x7b\"recommendations\":[\"r4a\",\"r4b\"]\x7d",
           some "\x7b\"recommendations\":[\"r5a\",\"r5b\"]\x7d",
           some "\x7b\"recommendations\":[\"r6a\",\"r6b\"]\x7d",
           some "\x7b\"recommendations\":[\"r7a\",\"r7b\"]\x7d",
           some "\x7b\"recommendations\":[\"r8a\",\"r8b\"]\x7d"] :=
  ⟨{ issues := []
     summary := .jstr "Analyzed 8 files with 0 total issues found"
     overall_score := .jnum 0
     recommendations := .jarr [.jstr "r1a", .jstr "r1b", .jstr "r2a", .jstr "r2b",
       .jstr "r3a"] }, by rfl,
    c8_merge_recommendation_cap _
      ["r1a", "r1b", "r2a", "r2b", "r3a", "r3b", "r4a", "r4b", "r5a", "r5b",
       "r6a", "r6b", "r7a", "r7b", "r8a", "r8b"]
      (by rfl) (by decide) (by decide) _ (by rfl)⟩

/-- Claim C10 counterexample: the claim's "only chunks whose API call
raises an exception or returns empty content are excluded from the
denominator" is false: a chunk whose call succeeds with the non-empty
content \x7b"recommendations":5\x7d, whose brace extraction and JSON
decode both succeed, is still excluded — iterating the non-iterable
recommendations value raises a TypeError mid-loop, caught after the
issues were appended but before the score was, so no score enters the
denominator. -/
theorem c10_noniterable_recs_counterexample :
    ("\x7b\"recommendations\":5\x7d" : String) ≠ "" ∧
    extractBraces "\x7b\"recommendations\":5\x7d" = some "\x7b\"recommendations\":5\x7d" ∧
    jsonParse "\x7b\"recommendations\":5\x7d" = some (.jobj [("recommendations", .jnum 5)]) ∧
    (chunkStep ⟨[], [], []⟩ (some "\x7b\"recommendations\":5\x7d")).scores = [] :=
  ⟨by decide, by rfl, by rfl, by rfl⟩

/-- Claim C10 amended: a chunk whose completion succeeds with non-empty
content but whose JSON extraction fails contributes the fallback score 0
to the score list (and the fallback recommendation), entering the merge
denominator; chunks whose call raised or whose content is empty contribute
nothing at all; and a chunk whose parsed recommendations value is not
iterable keeps its issues but loses its recommendations and score (the
TypeError is caught mid-update), so it too is excluded from the
denominator. Concretely, a 90-scoring chunk merged with a garbage chunk
averages to (90+0)//2 = 45. -/
theorem c10_failed_parse_enters_denominator :
    (∀ (acc : ChunkAcc) (c : String), c ≠ "" → _parse_openai_response c = fallbackResult →
      chunkStep acc (some c) =
        { all_issues := acc.all_issues
          all_recommendations := acc.all_recommendations ++ [.jstr "Review the code manually"]
          scores := acc.scores ++ [.jnum 0] }) ∧
    (∀ acc : ChunkAcc, chunkStep acc none = acc) ∧
    (∀ acc : ChunkAcc, chunkStep acc (some "") = acc) ∧
    (∀ (acc : ChunkAcc) (c : String), c ≠ "" →
      pyIter (_parse_openai_response c).recommendations = .error () →
      chunkStep acc (some c) =
        { acc with all_issues := acc.all_issues ++ (_parse_openai_response c).issues }) ∧
    _analyze_large_diff [some "\x7b\"overall_score\":90\x7d", some "no json here"] =
      .ok { issues := []
            summary := .jstr "Analyzed 2 files with 0 total issues found"
            overall_score := .jnum 45
            recommendations := .jarr [.jstr "Review the code manually"] } := by
  refine ⟨?_, fun acc => rfl, fun acc => rfl, ?_, by rfl⟩
  · intro acc c hc hp
    unfold chunkStep
    simp only [hc, ite_false, if_neg, hp]
    rw [(rfl : pyIter fallbackResult.recommendations =
      Except.ok [JValue.jstr "Review the code manually"])]
    simp [fallbackResult, pyIter]
  · intro acc c hc hit
    unfold chunkStep
    simp [hc, hit]

/-- Witness for claim C10 at a concrete garbage chunk and accumulator. -/
theorem c10_failed_parse_enters_denominator_witness :
    chunkStep ⟨[], [], [.jnum 90]⟩ (some "no json here") =
      ⟨[], [.jstr "Review the code manually"], [.jnum 90, .jnum 0]⟩ ∧
    chunkStep ⟨[], [], [.jnum 90]⟩ none = ⟨[], [], [.jnum 90]⟩ ∧
    chunkStep ⟨[], [], [.jnum 90]⟩ (some "") = ⟨[], [], [.jnum 90]⟩ ∧
    chunkStep ⟨[], [], [.jnum 90]⟩ (some "\x7b\"recommendations\":5\x7d") =
      ⟨[], [], [.jnum 90]⟩ :=
  ⟨c10_failed_parse_enters_denominator.1 ⟨[], [], [.jnum 90]⟩ "no json here"
      (by decide) (by rfl),
    c10_failed_parse_enters_denominator.2.1 ⟨[], [], [.jnum 90]⟩,
    c10_failed_parse_enters_denominator.2.2.1 ⟨[], [], [.jnum 90]⟩,
    c10_failed_parse_enters_denominator.2.2.2.1 ⟨[], [], [.jnum 90]⟩
      "\x7b\"recommendations\":5\x7d" (by decide) (by rfl)⟩

end PRToolbox
